import Mathlib

/-!
Verification of `gumroad-utils` (`src/gumroad_utils/scrapper.py`).

Shallow embedding: the pure decision logic, the download cache, the
filename sanitizer, the content-tree walker, and the stateful download
engine of `GumroadScrapper` are translated into executable Lean
definitions, and the specified properties are settled against them.

Conventions:
* Python `dict[str, set]` is modelled as an association list whose
  values are duplicate-free lists (Python's `set.add` inserts only when
  absent).
* `pathlib` paths are modelled as lists of non-empty path components;
  joining a string splits it on `/` (as `pathlib` does), drops empty and
  `.` components, and an absolute right-hand side resets the path.
* Fallible Python code (raising exceptions) is modelled with `Except`.
-/

namespace GumroadUtils

/-! ## FilesCache (`scrapper.py`, class `FilesCache`)

`_storage : dict[str, set]` maps a product id to the set of file ids
already downloaded.  `save` serializes it as a JSON object of arrays
(`json.dump(..., default=list)`), `load` rebuilds each set with
`set(v)`. -/

/-- In-memory storage of `FilesCache`: association list from product id
to the list of file ids (the Python `set` is a duplicate-free list). -/
abbrev Storage := List (String × List String)

namespace FilesCache

/-- Lookup of `self._storage.get(product_id, ...)`. -/
def lookup : Storage → String → Option (List String)
  | [], _ => none
  | (k, v) :: rest, p => if k = p then some v else lookup rest p

/-- `FilesCache.is_cached`: `file_id in self._storage.get(product_id, [])`. -/
def is_cached (s : Storage) (product_id file_id : String) : Bool :=
  match lookup s product_id with
  | none => false
  | some v => v.contains file_id

/-- Python `set.add`: insert the element only when it is absent. -/
def setAdd (v : List String) (f : String) : List String :=
  if v.contains f then v else v ++ [f]

/-- `FilesCache.cache`: `self._storage[product_id].add(file_id)` where
`_storage` is a `defaultdict(set)` (a missing key gets a fresh set). -/
def cache : Storage → String → String → Storage
  | [], p, f => [(p, [f])]
  | (k, v) :: rest, p, f =>
      if k = p then (k, setAdd v f) :: rest else (k, v) :: cache rest p f

/-- `FilesCache.save`: `json.dump(self._storage, f, default=list)` — the
serialized form is the object-of-arrays structure itself. -/
def save (s : Storage) : Storage := s

/-- `FilesCache.load` into a fresh instance: for each key of the JSON
object, `self._storage[k] = set(v)` (deduplicating the array). -/
def load (j : Storage) : Storage := j.map (fun kv => (kv.1, kv.2.dedup))

/-- A cache state reached from an empty fresh instance by a sequence of
`cache` (mark) calls. -/
def runOps (ops : List (String × String)) : Storage :=
  ops.foldl (fun s pf => cache s pf.1 pf.2) []

end FilesCache

/-! ## Filename sanitizer (`GumroadScrapper.sanitize_filename`) -/

/-- The characters of the Python literal `r'<>:"/\|?*'`. -/
def invalid_chars : List Char := ['<', '>', ':', '"', '/', '\\', '|', '?', '*']

/-- One step of the generator expression: an invalid character becomes
the configured replacement string, any other character stays. -/
def sanitizeChar (repl : List Char) (c : Char) : List Char :=
  if invalid_chars.contains c then repl else [c]

/-- `GumroadScrapper.sanitize_filename`:
`''.join(self._slash_replacement if c in invalid_chars else c for c in filename)`. -/
def sanitize_filename (repl : String) (filename : String) : String :=
  ⟨(filename.data.map (sanitizeChar repl.data)).flatten⟩

/-! ## Paths

`pathlib3x.Path` values are modelled as lists of path components.
Joining (`p / s`) splits the string on `/`, drops empty and `.`
components, and an absolute right-hand side replaces the path, as
`pathlib` does. -/

/-- Python `str.lower()` on one ASCII character. -/
def lowerChar (c : Char) : Char :=
  if 'A' ≤ c && c ≤ 'Z' then Char.ofNat (c.toNat + 32) else c

/-- Python `str.lower()` (ASCII case folding). -/
def pyLower (s : String) : String := ⟨s.data.map lowerChar⟩

/-- The whitespace characters removed by Python `str.strip()`. -/
def pySpace : List Char := [' ', '\t', '\n', '\r', '\x0b', '\x0c']

/-- Python `str.strip()`: drop leading and trailing whitespace. -/
def stripChars (l : List Char) : List Char :=
  ((l.dropWhile (pySpace.contains ·)).reverse.dropWhile (pySpace.contains ·)).reverse

/-- Python `str.strip()`. -/
def strip (s : String) : String := ⟨stripChars s.data⟩

/-- Split a character list on `/`. -/
def splitSlash : List Char → List (List Char)
  | [] => [[]]
  | c :: rest =>
      if c = '/' then [] :: splitSlash rest
      else
        match splitSlash rest with
        | [] => [[c]]
        | g :: gs => (c :: g) :: gs

/-- `pathlib` path join `p / s`: split the string on `/`, drop empty and
`.` components, and let an absolute right-hand side replace the path. -/
def pathJoin (p : List String) (s : String) : List String :=
  let parts := ((splitSlash s.data).map (fun l => (⟨l⟩ : String))).filter
    (fun c => c ≠ "" && c ≠ ".")
  if s.data.head? = some '/' then parts else p ++ parts

/-- Index of the last `.` in a list of characters (`str.rfind('.')`). -/
def lastDotIdx : List Char → Option Nat
  | [] => none
  | c :: rest =>
      match lastDotIdx rest with
      | some j => some (j + 1)
      | none => if c = '.' then some 0 else none

/-- Length of the stem of a `pathlib` name: the suffix starts at the
last dot when that dot is neither the first nor the last character;
otherwise the name has no suffix. -/
def pyStemLen (l : List Char) : Nat :=
  match lastDotIdx l with
  | some i => if 0 < i && i + 1 < l.length then i else l.length
  | none => l.length

/-- `pathlib.Path.with_suffix` on a single name: drop the existing
suffix (if any) and append the new one. -/
def withSuffixName (name suf : String) : String :=
  ⟨name.data.take (pyStemLen name.data)⟩ ++ suf

/-- `pathlib.Path.with_suffix` on a path: rewrite the last component. -/
def with_suffix : List String → String → List String
  | [], _ => []
  | [n], suf => [withSuffixName n suf]
  | n :: rest, suf => n :: with_suffix rest suf

/-! ## Content tree (`DownloadPageWithContent` manifest items)

An item of `script["content"]["content_items"]` carries a `type` field;
the walker treats `"folder"` items as folders (recursing into their
`children`), `"file"` items with a `download_url` as downloadable, and
anything else (e.g. embedded preview items) as neither. -/

/-- The fields of a `"file"` manifest item read by `_download_content`. -/
structure FileData where
  id : String
  file_name : String
  extension : String
  download_url : Option String
  deriving Repr, DecidableEq

/-- A node of the content manifest.  `embedded` stands for any item
whose `type` string is neither `"folder"` nor `"file"`. -/
inductive Item where
  | file : FileData → Item
  | folder : String → List Item → Item
  | embedded : Item
  deriving Repr

/-- A download task as handed to `_fancy_download_file`. -/
structure Task where
  product_id : String
  file_id : String
  url : String
  tree_path : List String
  file_path : List String
  files_total_count : Nat
  file_idx : Nat
  transient : Bool
  deriving Repr, DecidableEq

/-- First loop of `_traverse_tree`: `files_count` counts every item
whose `type` is not `"folder"`. -/
def countFiles (items : List Item) : Nat :=
  items.countP (fun it =>
    match it with
    | .folder _ _ => false
    | _ => true)

/-- Number of items at one level that actually yield a task: `"file"`
items having a `download_url`. -/
def emittedCount (items : List Item) : Nat :=
  items.countP (fun it =>
    match it with
    | .file f => f.download_url.isSome
    | _ => false)

/-- Total number of `"file"` items in a manifest, at arbitrary nesting
(the `N` of the Tree Walker completeness property). -/
def numFileItems : List Item → Nat
  | [] => 0
  | .file _ :: rest => numFileItems rest + 1
  | .folder _ cs :: rest => numFileItems cs + numFileItems rest
  | .embedded :: rest => numFileItems rest

/-- Total number of `"file"` items with a `download_url` in a manifest,
at arbitrary nesting. -/
def numDownloadable : List Item → Nat
  | [] => 0
  | .file f :: rest =>
      numDownloadable rest + (if f.download_url.isSome then 1 else 0)
  | .folder _ cs :: rest => numDownloadable cs + numDownloadable rest
  | .embedded :: rest => numDownloadable rest

/-- Total number of `"file"` items with a `download_url` inside the
`"folder"` items of a level (the tasks contributed by the folder pass). -/
def numDlFolders : List Item → Nat
  | [] => 0
  | .file _ :: rest => numDlFolders rest
  | .folder _ cs :: rest => numDownloadable cs + numDlFolders rest
  | .embedded :: rest => numDlFolders rest

/-- Second loop of `_traverse_tree`: emit a task for every `"file"` item
with a `download_url`, incrementing `file_idx` only for emitted files.
`fc` is the `files_count` computed by the first loop. -/
def emitFiles (pid repl base : String) (tp pf : List String) (fc : Nat) :
    List Item → Nat → List Task
  | [], _ => []
  | .file f :: rest, idx =>
      match f.download_url with
      | none => emitFiles pid repl base tp pf fc rest idx
      | some dl =>
          { product_id := pid
            file_id := f.id
            url := base ++ dl
            tree_path := tp
            file_path :=
              with_suffix (pathJoin pf (sanitize_filename repl f.file_name))
                ("." ++ pyLower f.extension)
            files_total_count := fc
            file_idx := idx + 1
            transient := true } :: emitFiles pid repl base tp pf fc rest (idx + 1)
  | .folder _ _ :: rest, idx => emitFiles pid repl base tp pf fc rest idx
  | .embedded :: rest, idx => emitFiles pid repl base tp pf fc rest idx

/-- First loop of `_traverse_tree`: recurse into every `"folder"` item
(depth first, folders before this level's files), each recursive call
performing the full two-pass walk of the child level. -/
def travFolders (pid repl base : String) :
    List Item → List String → List String → List Task
  | [], _, _ => []
  | .folder name cs :: rest, tp, pf =>
      (travFolders pid repl base cs (pathJoin tp (strip name))
          (pathJoin pf (strip name)) ++
        emitFiles pid repl base (pathJoin tp (strip name))
          (pathJoin pf (strip name)) (countFiles cs) cs 0) ++
        travFolders pid repl base rest tp pf
  | .file _ :: rest, tp, pf => travFolders pid repl base rest tp pf
  | .embedded :: rest, tp, pf => travFolders pid repl base rest tp pf

/-- `_traverse_tree items tree_path parent_folder`: the folder pass
followed by this level's file pass. -/
def travList (pid repl base : String) (items : List Item)
    (tp pf : List String) : List Task :=
  travFolders pid repl base items tp pf ++
    emitFiles pid repl base tp pf (countFiles items) items 0

/-- Shape of a task emitted by the file pass of one level `cur` with
parent folder `pf`: it comes from a `"file"` item of `cur` that has a
`download_url`; its destination path joins `pf` with the *sanitized*
file name and forces the lower-cased declared extension as suffix; its
`files_total_count` is the level's `files_count`. -/
def TaskFrom (pid repl base : String) (cur : List Item) (pf : List String)
    (t : Task) : Prop :=
  ∃ f dl, Item.file f ∈ cur ∧ f.download_url = some dl ∧
    t.product_id = pid ∧ t.file_id = f.id ∧ t.url = base ++ dl ∧
    t.file_path =
      with_suffix (pathJoin pf (sanitize_filename repl f.file_name))
        ("." ++ pyLower f.extension) ∧
    t.files_total_count = countFiles cur ∧ t.transient = true

/-- The folder levels reachable from a root level: `Reaches items pf cur
pfc` holds when the walk starting at `(items, pf)` descends through a
chain of `"folder"` items to the level `(cur, pfc)`, each step extending
the parent folder with the folder's *stripped* name. -/
inductive Reaches (repl : String) :
    List Item → List String → List Item → List String → Prop
  | here (items : List Item) (pf : List String) : Reaches repl items pf items pf
  | into {items : List Item} {pf : List String} {name : String}
      {cs cur : List Item} {pfc : List String} :
      Item.folder name cs ∈ items →
      Reaches repl cs (pathJoin pf (strip name)) cur pfc →
      Reaches repl items pf cur pfc

/-! ## Download engine (`GumroadScrapper._fancy_download_file`)

The streamed GET is modelled by an environment mapping a URL to its
response; the side effects (directories created, files written, cache
mutations and persisted snapshots, log lines) are threaded through an
explicit state.  A raised `requests.HTTPError` is an `Except.error`. -/

/-- Log levels used by the scraper's logger calls. -/
inductive LogLevel where
  | debug
  | info
  | warning
  deriving Repr, DecidableEq

/-- A streamed HTTP response: `ok` is `response.ok` (2xx, otherwise
`raise_for_status` raises), `contentLength` the `content-length` header
(absent → `none`, and `headers.get("content-length", 0)` yields `0`),
`chunks` the chunks yielded by `iter_content`. -/
structure Response where
  ok : Bool
  contentLength : Option Nat
  chunks : List (List Nat)
  deriving Repr, DecidableEq

/-- Observable side effects of the scraper run. -/
structure DlState where
  cache : Storage
  dirs : List (List String)
  files : List (List String × List Nat)
  saved : List Storage
  logs : List (LogLevel × String)
  deriving Repr, DecidableEq

/-- `_fancy_download_file`: cached tasks are skipped with a debug log;
`raise_for_status` raises on a non-2xx response; a zero/absent declared
content length warns and returns with no further effect; otherwise the
parent directory is created, the non-empty chunks are written to the
destination file, the cache entry is marked and the cache is saved. -/
def fancy_download_file (env : String → Response) (st : DlState) (t : Task) :
    Except String DlState :=
  if FilesCache.is_cached st.cache t.product_id t.file_id then
    Except.ok { st with
      logs := st.logs ++ [(LogLevel.debug, "already downloaded, skipping")] }
  else
    let r := env t.url
    if !r.ok then Except.error "HTTPError"
    else if r.contentLength.getD 0 = 0 then
      Except.ok { st with
        logs := st.logs ++ [(LogLevel.warning, "received zero content length")] }
    else
      let cache' := FilesCache.cache st.cache t.product_id t.file_id
      Except.ok { st with
        dirs := st.dirs ++ [t.file_path.dropLast]
        files := st.files ++
          [(t.file_path, (r.chunks.filter (fun c => c ≠ [])).flatten)]
        cache := cache'
        saved := st.saved ++ [FilesCache.save cache']
        logs := st.logs ++ [(LogLevel.info, "downloaded")] }

/-- Sequential execution of the tasks of one product (the walk performs
one download per task, in order); an exception propagates — there is no
handler in `_traverse_tree`, `_download_content` or `scrap_product_page`. -/
def runTasks (env : String → Response) : DlState → List Task → Except String DlState
  | st, [] => Except.ok st
  | st, t :: rest =>
      match fancy_download_file env st t with
      | Except.error e => Except.error e
      | Except.ok st' => runTasks env st' rest

/-- Sequential processing of the products of a library run; an exception
propagates — the loop of `scrape_library` has no per-product handler. -/
def runProducts (env : String → Response) :
    DlState → List (List Task) → Except String DlState
  | st, [] => Except.ok st
  | st, p :: rest =>
      match runTasks env st p with
      | Except.error e => Except.error e
      | Except.ok st' => runProducts env st' rest

/-! ## Archive-vs-tree decision (`_content_is_archive` and the ZIP
branch of `scrap_product_page`) -/

/-- Python exceptions raised by the modelled fragments. -/
inductive PyError where
  | typeError
  | indexError
  deriving Repr, DecidableEq

/-- `_ARCHIVES_EXT = {"rar", "zip"}`. -/
def ARCHIVES_EXT : List String := ["rar", "zip"]

/-- `_content_is_archive`: each `.js-file-list-element` is represented
by the text of its first `li` child (the displayed file type).  With
more than one element the answer is `False`; otherwise the first element
is indexed — an empty selection raises `IndexError`. -/
def content_is_archive (tree_elements : List String) : Except PyError Bool :=
  if tree_elements.length > 1 then Except.ok false
  else
    match tree_elements with
    | [] => Except.error PyError.indexError
    | e :: _ => Except.ok (ARCHIVES_EXT.contains (pyLower (strip e)))

/-- The two download modes of `scrap_product_page`. -/
inductive Mode where
  | archive
  | tree
  deriving Repr, DecidableEq

/-- The archive-vs-tree decision of `scrap_product_page`: without a
"download all as ZIP" action the tree is walked; with one, a content
that `_content_is_archive` recognizes breaks back to the tree walk,
otherwise the ZIP is downloaded; an exception propagates. -/
def archive_decision (has_zip_action : Bool) (tree_elements : List String) :
    Except PyError Mode :=
  if has_zip_action then
    match content_is_archive tree_elements with
    | Except.error e => Except.error e
    | Except.ok true => Except.ok Mode.tree
    | Except.ok false => Except.ok Mode.archive
  else Except.ok Mode.tree

/-- A Python value passed positionally at a call site. -/
inductive PyVal where
  | str : String → PyVal
  | path : List String → PyVal
  deriving Repr, DecidableEq

/-- Python `str.replace` (replace all occurrences), on character lists. -/
def replaceChars (pat rep : List Char) : List Char → List Char
  | [] => []
  | c :: rest =>
      if h : pat ≠ [] ∧ pat.isPrefixOf (c :: rest) then
        rep ++ replaceChars pat rep ((c :: rest).drop pat.length)
      else c :: replaceChars pat rep rest
termination_by l => l.length
decreasing_by
  · have hlen : 0 < pat.length := List.length_pos.mpr h.1
    simp only [List.length_drop, List.length_cons]
    omega
  · simp

/-- Python `str.replace`. -/
def str_replace (s pat rep : String) : String :=
  ⟨replaceChars pat.data rep.data s.data⟩

/-- `pathlib3x.Path.append_suffix`: append a suffix to the last
component without replacing the existing one. -/
def append_suffix : List String → String → List String
  | [], _ => []
  | [n], suf => [n ++ suf]
  | n :: rest, suf => n :: append_suffix rest suf

/-- Number of parameters of `_fancy_download_file` without a default
value: `product_id`, `file_id`, `url`, `tree_path`, `file_path`. -/
def fancyDownloadRequiredParams : Nat := 5

/-- Binding of a positional Python call to `_fancy_download_file`: a
call supplying fewer positional arguments than the required positional
parameters raises `TypeError` before the body runs; otherwise the bound
argument list is handed to the body. -/
def call_fancy_download_file (args : List PyVal) : Except PyError (List PyVal) :=
  if args.length < fancyDownloadRequiredParams then Except.error PyError.typeError
  else Except.ok args

/-- The ZIP branch of `scrap_product_page` (reached when a "download all
as ZIP" action is present and the content is not a single archive):
`zip_url = url.replace("/d/", "/zip/")`,
`output = product_folder.append_suffix(".zip")`, then
`self._fancy_download_file(zip_url, Path("/"), output, transient=False)`
— three positional arguments. -/
def zip_branch (url : String) (product_folder : List String) :
    Except PyError (List PyVal) :=
  call_fancy_download_file
    [PyVal.str (str_replace url "/d/" "/zip/"),
      PyVal.path [],
      PyVal.path (append_suffix product_folder ".zip")]

/-! ## Library scraping (`scrape_library`) -/

/-- The fields of one entry of `script["results"]` that the library loop
reads.  A missing `creator` object leaves `creator_profile_url` at its
`"none"` default, modelled by `Option`. -/
structure LibraryResult where
  creator_profile_url : Option String
  product_name : String
  is_bundle_purchase : Bool
  download_url : String
  deriving Repr, DecidableEq

/-- The `creators` argument of `scrape_library`: either a Python string
(the default sentinel `"."`) or a set of creator usernames. -/
inductive PyCreators where
  | str : String → PyCreators
  | set : List String → PyCreators
  deriving Repr, DecidableEq

/-- Python `creator_username in creators`: substring containment when
`creators` is a string, membership when it is a set. -/
def pyIn (u : String) (c : PyCreators) : Bool :=
  match c with
  | PyCreators.str s => decide (u.data <:+: s.data)
  | PyCreators.set cs => cs.contains u

/-- The capture of the regex
`https:\/\/(.*)\.gumroad\.com\?recommended_by=library` applied to a
profile URL of that exact shape (on failure the loop keeps the
`"none"` default). -/
def extractUsername (purl : String) : Option String :=
  let pre := "https://".data
  let suf := ".gumroad.com?recommended_by=library".data
  if pre.isPrefixOf purl.data && List.isSuffixOf suf purl.data &&
      decide (pre.length + suf.length ≤ purl.data.length) then
    some ⟨(purl.data.drop pre.length).take
      (purl.data.length - pre.length - suf.length)⟩
  else none

/-- Creator-username resolution of the library loop: a missing creator
object leaves the profile URL at `"none"`, and a profile URL the regex
does not match leaves the username at `"none"`. -/
def resolveUsername (r : LibraryResult) : String :=
  match r.creator_profile_url with
  | none => "none"
  | some purl => (extractUsername purl).getD "none"

/-- The skip condition of the library loop:
`creator_username not in creators and creators != "."`. -/
def skipsCreator (creators : PyCreators) (u : String) : Bool :=
  !pyIn u creators && decide (creators ≠ PyCreators.str ".")

/-- `scrape_library`: for each library result in order, apply the
creator filter, skip bundle purchases with an info log line, and
delegate the remaining purchases' `download_url` to `scrap_product_page`.
Returns the delegated URLs and the product names logged as skipped
bundles. -/
def scrape_library (creators : PyCreators) :
    List LibraryResult → List String × List String
  | [] => ([], [])
  | r :: rest =>
      let out := scrape_library creators rest
      if skipsCreator creators (resolveUsername r) then out
      else if r.is_bundle_purchase then (out.1, r.product_name :: out.2)
      else (r.download_url :: out.1, out.2)

end GumroadUtils

namespace GumroadUtils

/-! ### Helper lemmas for the cache round trip -/

theorem lookup_load (j : Storage) (p : String) :
    FilesCache.lookup (FilesCache.load j) p =
      (FilesCache.lookup j p).map List.dedup := by
  induction j with
  | nil => rfl
  | cons kv rest ih =>
      simp only [FilesCache.load, List.map_cons, FilesCache.lookup]
      by_cases h : kv.1 = p
      · simp [h]
      · simp [h, ← ih, FilesCache.load]

theorem setAdd_nodup {v : List String} (f : String) (h : v.Nodup) :
    (FilesCache.setAdd v f).Nodup := by
  unfold FilesCache.setAdd
  by_cases hc : f ∈ v
  · simp [hc, h]
  · simp [List.elem_eq_mem, hc, List.nodup_append, h]

/-- Values of the storage stay duplicate-free under a `cache` call. -/
theorem cache_valuesNodup {s : Storage} (p f : String)
    (h : ∀ kv ∈ s, kv.2.Nodup) :
    ∀ kv ∈ FilesCache.cache s p f, kv.2.Nodup := by
  induction s with
  | nil =>
      intro kv hkv
      simp only [FilesCache.cache, List.mem_singleton] at hkv
      simp [hkv]
  | cons hd rest ih =>
      intro kv hkv
      simp only [FilesCache.cache] at hkv
      by_cases hk : hd.1 = p
      · rw [if_pos hk] at hkv
        rcases List.mem_cons.mp hkv with h1 | h2
        · subst h1
          exact setAdd_nodup f (h hd (List.mem_cons_self hd rest))
        · exact h kv (List.mem_cons_of_mem hd h2)
      · rw [if_neg hk] at hkv
        rcases List.mem_cons.mp hkv with h1 | h2
        · subst h1; exact h hd (List.mem_cons_self hd rest)
        · exact ih (fun kv hm => h kv (List.mem_cons_of_mem hd hm)) kv h2

/-- Every state reachable by a sequence of mark calls has
duplicate-free value lists. -/
theorem runOps_valuesNodup (ops : List (String × String)) :
    ∀ kv ∈ FilesCache.runOps ops, kv.2.Nodup := by
  suffices h : ∀ s, (∀ kv ∈ s, kv.2.Nodup) →
      ∀ kv ∈ ops.foldl (fun s pf => FilesCache.cache s pf.1 pf.2) s, kv.2.Nodup by
    exact h [] (by simp)
  induction ops with
  | nil => intro s hs; simpa using hs
  | cons op rest ih =>
      intro s hs
      exact ih (FilesCache.cache s op.1 op.2) (cache_valuesNodup op.1 op.2 hs)

theorem load_save_of_nodup {s : Storage} (h : ∀ kv ∈ s, kv.2.Nodup) :
    FilesCache.load (FilesCache.save s) = s := by
  unfold FilesCache.save FilesCache.load
  induction s with
  | nil => rfl
  | cons kv rest ih =>
      simp only [List.map_cons, List.cons.injEq]
      constructor
      · have := (h kv (List.mem_cons_self kv rest)).dedup
        exact Prod.ext rfl this
      · exact ih (fun kv hm => h kv (List.mem_cons_of_mem _ hm))

/-- **C1.** Cache persistence round trip: for every cache state reachable
by a sequence of `cache` (mark) calls from a fresh instance, saving and
then loading in a fresh instance reproduces the very same `is_cached`
truth table, and `save (load (save S)) = save S`. -/
theorem c1_cache_roundtrip (ops : List (String × String)) (p f : String) :
    FilesCache.is_cached
        (FilesCache.load (FilesCache.save (FilesCache.runOps ops))) p f =
      FilesCache.is_cached (FilesCache.runOps ops) p f ∧
    FilesCache.save (FilesCache.load (FilesCache.save (FilesCache.runOps ops))) =
      FilesCache.save (FilesCache.runOps ops) := by
  have hload := load_save_of_nodup (runOps_valuesNodup ops)
  exact ⟨by rw [hload], by rw [hload]⟩

/-! ### Helper lemmas for sanitizer idempotence -/

theorem sanitize_eq_self_of_clean {repl : List Char} {l : List Char}
    (h : ∀ c ∈ l, invalid_chars.contains c = false) :
    (l.map (sanitizeChar repl)).flatten = l := by
  induction l with
  | nil => rfl
  | cons c rest ih =>
      have hc := h c (List.mem_cons_self c rest)
      simp only [List.map_cons, List.flatten_cons, sanitizeChar, hc,
        Bool.false_eq_true, if_false, List.singleton_append, List.cons.injEq]
      exact ⟨trivial, ih (fun c hm => h c (List.mem_cons_of_mem _ hm))⟩

theorem sanitize_output_clean {repl : List Char}
    (hrepl : ∀ c ∈ repl, invalid_chars.contains c = false) (l : List Char) :
    ∀ c ∈ (l.map (sanitizeChar repl)).flatten, invalid_chars.contains c = false := by
  induction l with
  | nil => simp
  | cons c rest ih =>
      intro c' hc'
      simp only [List.map_cons, List.flatten_cons, List.mem_append] at hc'
      rcases hc' with hin | hin
      · unfold sanitizeChar at hin
        by_cases hc : invalid_chars.contains c
        · rw [if_pos hc] at hin
          exact hrepl c' hin
        · rw [if_neg hc] at hin
          rcases List.mem_singleton.mp hin with rfl
          simpa using hc
      · exact ih c' hin

/-- **C7 counterexample.** With the configured replacement string `"a?"`
(which itself contains the invalid character `?`), sanitizing the string
`"/"` twice differs from sanitizing it once, refuting idempotence for
arbitrary replacement strings. -/
theorem c7_sanitize_not_idempotent :
    sanitize_filename "a?" (sanitize_filename "a?" "/") ≠
      sanitize_filename "a?" "/" := by
  decide

/-- **C7 (amended).** Sanitization idempotence holds for every input
string provided the configured replacement string contains no
filesystem-invalid character:
`sanitize_filename repl (sanitize_filename repl x) = sanitize_filename repl x`. -/
theorem c7_sanitize_idempotent (repl x : String)
    (h : ∀ c ∈ repl.data, invalid_chars.contains c = false) :
    sanitize_filename repl (sanitize_filename repl x) =
      sanitize_filename repl x := by
  unfold sanitize_filename
  apply congrArg String.mk
  exact sanitize_eq_self_of_clean (sanitize_output_clean h x.data)

/-- **C7 witness.** The amended idempotence theorem applied at the
concrete replacement `"_"` and input `"a/b"`. -/
theorem c7_sanitize_idempotent_witness :
    sanitize_filename "_" (sanitize_filename "_" "a/b") =
      sanitize_filename "_" "a/b" :=
  c7_sanitize_idempotent "_" "a/b" (by decide)

/-! ### Helper lemmas for the tree walker -/

theorem emitFiles_length (pid repl base : String) (tp pf : List String)
    (fc : Nat) (items : List Item) (idx : Nat) :
    (emitFiles pid repl base tp pf fc items idx).length = emittedCount items := by
  induction items generalizing idx with
  | nil => rfl
  | cons it rest ih =>
      cases it with
      | file f =>
          cases hdl : f.download_url with
          | none => simp [emitFiles, hdl, emittedCount, List.countP_cons, ih]
          | some dl => simp [emitFiles, hdl, emittedCount, List.countP_cons, ih]
      | folder name cs => simp [emitFiles, emittedCount, List.countP_cons, ih]
      | embedded => simp [emitFiles, emittedCount, List.countP_cons, ih]

theorem emitFiles_map_idx (pid repl base : String) (tp pf : List String)
    (fc : Nat) (items : List Item) (idx : Nat) :
    (emitFiles pid repl base tp pf fc items idx).map (fun t => t.file_idx) =
      List.range' (idx + 1) (emittedCount items) := by
  induction items generalizing idx with
  | nil => rfl
  | cons it rest ih =>
      cases it with
      | file f =>
          cases hdl : f.download_url with
          | none => simp [emitFiles, hdl, emittedCount, List.countP_cons, ih]
          | some dl =>
              simp only [emitFiles, hdl, List.map_cons, ih, emittedCount,
                List.countP_cons]
              simp [List.range'_succ, Nat.add_assoc, Nat.add_comm 1 1]
      | folder name cs => simp [emitFiles, emittedCount, List.countP_cons, ih]
      | embedded => simp [emitFiles, emittedCount, List.countP_cons, ih]

theorem emitFiles_mem (pid repl base : String) (tp pf : List String)
    (fc : Nat) (items : List Item) (idx : Nat) (t : Task)
    (ht : t ∈ emitFiles pid repl base tp pf fc items idx) :
    ∃ f dl, Item.file f ∈ items ∧ f.download_url = some dl ∧
      t.product_id = pid ∧ t.file_id = f.id ∧ t.url = base ++ dl ∧
      t.tree_path = tp ∧
      t.file_path =
        with_suffix (pathJoin pf (sanitize_filename repl f.file_name))
          ("." ++ pyLower f.extension) ∧
      t.files_total_count = fc ∧ t.transient = true := by
  induction items generalizing idx with
  | nil => simp [emitFiles] at ht
  | cons it rest ih =>
      cases it with
      | file f =>
          cases hdl : f.download_url with
          | none =>
              rw [emitFiles, hdl] at ht
              obtain ⟨g, dl, hg, rest'⟩ := ih idx ht
              exact ⟨g, dl, List.mem_cons_of_mem _ hg, rest'⟩
          | some dl =>
              rw [emitFiles, hdl] at ht
              rcases List.mem_cons.mp ht with rfl | ht'
              · exact ⟨f, dl, List.mem_cons_self _ _, hdl, rfl, rfl, rfl, rfl,
                  rfl, rfl, rfl⟩
              · obtain ⟨g, dl', hg, rest'⟩ := ih (idx + 1) ht'
                exact ⟨g, dl', List.mem_cons_of_mem _ hg, rest'⟩
      | folder name cs =>
          rw [emitFiles] at ht
          obtain ⟨g, dl, hg, rest'⟩ := ih idx ht
          exact ⟨g, dl, List.mem_cons_of_mem _ hg, rest'⟩
      | embedded =>
          rw [emitFiles] at ht
          obtain ⟨g, dl, hg, rest'⟩ := ih idx ht
          exact ⟨g, dl, List.mem_cons_of_mem _ hg, rest'⟩

/-- At one level, the downloadable items split into those inside the
folder pass and those emitted by the file pass. -/
theorem numDownloadable_split (items : List Item) :
    numDownloadable items = numDlFolders items + emittedCount items := by
  induction items with
  | nil => simp [numDownloadable, numDlFolders, emittedCount]
  | cons it rest ih =>
      cases it with
      | file f =>
          cases hdl : f.download_url with
          | none =>
              simp only [numDownloadable, numDlFolders, emittedCount,
                List.countP_cons, ih, hdl]
              simp
          | some dl =>
              simp only [numDownloadable, numDlFolders, emittedCount,
                List.countP_cons, ih, hdl]
              simp only [Option.isSome_some]
              simp only [decide_True, if_true]
              omega
      | folder name cs =>
          simp only [numDownloadable, numDlFolders, emittedCount,
            List.countP_cons, ih]
          simp
          omega
      | embedded =>
          simp only [numDownloadable, numDlFolders, emittedCount,
            List.countP_cons, ih]
          simp

theorem travFolders_length (pid repl base : String) (items : List Item)
    (tp pf : List String) :
    (travFolders pid repl base items tp pf).length = numDlFolders items := by
  induction items, tp, pf using travFolders.induct pid repl base with
  | case1 tp pf => simp [travFolders, numDlFolders]
  | case2 name cs rest tp pf ih1 ih2 =>
      simp only [travFolders, List.length_append, ih1, ih2, emitFiles_length,
        numDlFolders]
      rw [← numDownloadable_split]
  | case3 f rest tp pf ih => simpa [travFolders, numDlFolders] using ih
  | case4 rest tp pf ih => simpa [travFolders, numDlFolders] using ih

theorem travList_length (pid repl base : String) (items : List Item)
    (tp pf : List String) :
    (travList pid repl base items tp pf).length = numDownloadable items := by
  simp only [travList, List.length_append, travFolders_length, emitFiles_length]
  rw [numDownloadable_split]

theorem travFolders_mem (pid repl base : String) (items : List Item)
    (tp pf : List String) (t : Task)
    (ht : t ∈ travFolders pid repl base items tp pf) :
    ∃ name cs cur pfc, Item.folder name cs ∈ items ∧
      Reaches repl cs (pathJoin pf (strip name)) cur pfc ∧
      TaskFrom pid repl base cur pfc t := by
  revert ht
  induction items, tp, pf using travFolders.induct pid repl base with
  | case1 tp pf => intro ht; simp [travFolders] at ht
  | case2 name cs rest tp pf ih1 ih2 =>
      intro ht
      simp only [travFolders, List.mem_append] at ht
      rcases ht with (hin | hin) | hin
      · obtain ⟨name2, cs2, cur, pfc, hmem2, hreach, htask⟩ := ih1 hin
        exact ⟨name, cs, cur, pfc, List.mem_cons_self _ _,
          Reaches.into hmem2 hreach, htask⟩
      · obtain ⟨f, dl, hf, hdl, h1, h2, h3, _, h5, h6, h7⟩ :=
          emitFiles_mem pid repl base _ _ _ _ _ _ hin
        exact ⟨name, cs, cs, pathJoin pf (strip name), List.mem_cons_self _ _,
          Reaches.here cs _, f, dl, hf, hdl, h1, h2, h3, h5, h6, h7⟩
      · obtain ⟨name2, cs2, cur, pfc, hmem2, hreach, htask⟩ := ih2 hin
        exact ⟨name2, cs2, cur, pfc, List.mem_cons_of_mem _ hmem2, hreach, htask⟩
  | case3 f rest tp pf ih =>
      intro ht
      rw [travFolders] at ht
      obtain ⟨name2, cs2, cur, pfc, hmem2, hreach, htask⟩ := ih ht
      exact ⟨name2, cs2, cur, pfc, List.mem_cons_of_mem _ hmem2, hreach, htask⟩
  | case4 rest tp pf ih =>
      intro ht
      rw [travFolders] at ht
      obtain ⟨name2, cs2, cur, pfc, hmem2, hreach, htask⟩ := ih ht
      exact ⟨name2, cs2, cur, pfc, List.mem_cons_of_mem _ hmem2, hreach, htask⟩

theorem travList_mem (pid repl base : String) (items : List Item)
    (tp pf : List String) (t : Task)
    (ht : t ∈ travList pid repl base items tp pf) :
    ∃ cur pfc, Reaches repl items pf cur pfc ∧
      TaskFrom pid repl base cur pfc t := by
  simp only [travList, List.mem_append] at ht
  rcases ht with hin | hin
  · obtain ⟨name, cs, cur, pfc, hmem, hreach, htask⟩ :=
      travFolders_mem pid repl base items tp pf t hin
    exact ⟨cur, pfc, Reaches.into hmem hreach, htask⟩
  · obtain ⟨f, dl, hf, hdl, h1, h2, h3, _, h5, h6, h7⟩ :=
      emitFiles_mem pid repl base _ _ _ _ _ _ hin
    exact ⟨items, pf, Reaches.here items pf, f, dl, hf, hdl, h1, h2, h3, h5,
      h6, h7⟩

theorem emittedCount_le_countFiles (items : List Item) :
    emittedCount items ≤ countFiles items := by
  unfold emittedCount countFiles
  refine List.countP_mono_left (fun it _ h => ?_)
  cases it <;> simp_all

/-! ### C5 — Tree Walker completeness -/

/-- **C5 counterexample.** The walker does not emit one task per file
item, and destination paths are not built from sanitized folder names:
on a manifest with a folder named `"a/b"` holding one downloadable file
and a second file item with no download URL, the walk emits one task for
two file items, and the task's path keeps the raw components `"a", "b"`
even though sanitizing `"a/b"` yields the single component `"a_b"`. -/
theorem c5_tree_walker_counterexample :
    (travList "p" "_" "B"
        [Item.folder "a/b" [Item.file ⟨"i1", "f", "TXT", some "/u"⟩],
          Item.file ⟨"i2", "g", "txt", none⟩] [] ["root"]).length = 1 ∧
    numFileItems
        [Item.folder "a/b" [Item.file ⟨"i1", "f", "TXT", some "/u"⟩],
          Item.file ⟨"i2", "g", "txt", none⟩] = 2 ∧
    (travList "p" "_" "B"
        [Item.folder "a/b" [Item.file ⟨"i1", "f", "TXT", some "/u"⟩],
          Item.file ⟨"i2", "g", "txt", none⟩] [] ["root"]).map
        (fun t => t.file_path) = [["root", "a", "b", "f.txt"]] ∧
    sanitize_filename "_" "a/b" = "a_b" := by
  refine ⟨?_, by simp [numFileItems], ?_, by decide⟩
  · simp only [travList, travFolders, emitFiles, countFiles]
    decide
  · simp only [travList, travFolders, emitFiles, countFiles]
    decide

/-- **C5 (amended).** Tree Walker completeness as the code implements
it: the walker emits exactly one task per `"file"` item *having a
download URL* (file items without one are skipped), and every task's
destination path is the parent folder of its (reachable) level — built
by joining the *stripped but unsanitized* folder names down the tree —
joined with the *sanitized* file name, with the lower-cased declared
extension forced as the suffix. -/
theorem c5_tree_walker_amended (pid repl base : String) (items : List Item)
    (tp pf : List String) :
    (travList pid repl base items tp pf).length = numDownloadable items ∧
    ∀ t ∈ travList pid repl base items tp pf,
      ∃ cur pfc, Reaches repl items pf cur pfc ∧
        TaskFrom pid repl base cur pfc t :=
  ⟨travList_length pid repl base items tp pf,
    fun t ht => travList_mem pid repl base items tp pf t ht⟩

/-- **C5 witness.** The amended theorem applied to a concrete one-folder
one-file manifest; the emitted task's path is
`root / dir / f.txt`. -/
theorem c5_tree_walker_amended_witness :
    ∃ cur pfc, Reaches "_" [Item.folder "dir" [Item.file ⟨"i1", "f", "txt", some "/u"⟩]]
        ["root"] cur pfc ∧
      TaskFrom "p" "_" "B" cur pfc
        { product_id := "p", file_id := "i1", url := "B/u",
          tree_path := ["dir"], file_path := ["root", "dir", "f.txt"],
          files_total_count := 1, file_idx := 1, transient := true } :=
  (c5_tree_walker_amended "p" "_" "B"
      [Item.folder "dir" [Item.file ⟨"i1", "f", "txt", some "/u"⟩]]
      [] ["root"]).2 _ (by
    simp only [travList, travFolders, emitFiles, countFiles]
    decide)

/-! ### C6 — positions and sibling counts at one folder level -/

/-- **C6 counterexample.** `sibling_count` does *not* equal the number
of tasks emitted at the level: at a level holding one file item with no
download URL and one downloadable file, the single emitted task carries
`files_total_count = 2` while only 1 task is emitted. -/
theorem c6_sibling_count_counterexample :
    (travList "p" "_" "B"
        [Item.file ⟨"i1", "f", "txt", none⟩,
          Item.file ⟨"i2", "g", "txt", some "/u"⟩] [] ["r"]).map
        (fun t => t.files_total_count) = [2] ∧
    (travList "p" "_" "B"
        [Item.file ⟨"i1", "f", "txt", none⟩,
          Item.file ⟨"i2", "g", "txt", some "/u"⟩] [] ["r"]).length = 1 := by
  constructor
  · simp only [travList, travFolders, emitFiles, countFiles]
    decide
  · simp only [travList, travFolders, emitFiles, countFiles]
    decide

/-- **C6 (amended).** At every folder level, the file pass hands
`files_count` (the number of non-folder items of the level) to every
emitted task as `sibling_count`, assigns `position_in_siblings` as the
1-based consecutive counter over the *emitted* files (file items with no
download URL are skipped and yield no task), and therefore every task
satisfies `1 ≤ position_in_siblings ≤ sibling_count`; the number of
emitted tasks is `emittedCount`, which can be smaller than
`sibling_count`. -/
theorem c6_sibling_positions (pid repl base : String) (tp pf : List String)
    (items : List Item) :
    ((emitFiles pid repl base tp pf (countFiles items) items 0).map
        (fun t => t.file_idx) = List.range' 1 (emittedCount items)) ∧
    (emitFiles pid repl base tp pf (countFiles items) items 0).length =
      emittedCount items ∧
    emittedCount items ≤ countFiles items ∧
    ∀ t ∈ emitFiles pid repl base tp pf (countFiles items) items 0,
      t.files_total_count = countFiles items ∧
        1 ≤ t.file_idx ∧ t.file_idx ≤ countFiles items := by
  refine ⟨emitFiles_map_idx pid repl base tp pf _ items 0,
    emitFiles_length pid repl base tp pf _ items 0,
    emittedCount_le_countFiles items, fun t ht => ?_⟩
  have hidx : t.file_idx ∈ List.range' 1 (emittedCount items) := by
    rw [← emitFiles_map_idx pid repl base tp pf (countFiles items) items 0]
    exact List.mem_map_of_mem _ ht
  obtain ⟨i, hi, hval⟩ := List.mem_range'.mp hidx
  obtain ⟨f, dl, _, _, _, _, _, _, _, htc, _⟩ :=
    emitFiles_mem pid repl base _ _ _ _ _ _ ht
  refine ⟨htc, by omega, ?_⟩
  have := emittedCount_le_countFiles items
  omega

/-! ### C2 — a per-file HTTP error is fatal to the run -/

/-- **C2 counterexample.** A non-2xx response on one file's streamed GET
aborts the whole run: with two products — the first holding a failing
task followed by a healthy sibling, the second healthy — the run ends in
the raised `HTTPError`; the sibling task and the second product are
never processed. -/
theorem c2_http_error_fatal_counterexample :
    runProducts
        (fun u => if u = "bad" then ⟨false, some 5, [[1]]⟩
          else ⟨true, some 1, [[7]]⟩)
        ⟨[], [], [], [], []⟩
        [[⟨"p1", "f1", "bad", [], ["r", "x"], 2, 1, true⟩,
            ⟨"p1", "f2", "good", [], ["r", "y"], 2, 2, true⟩],
          [⟨"p2", "f3", "good", [], ["r", "z"], 1, 1, true⟩]] =
      Except.error "HTTPError" := rfl

/-- **C2 (amended).** An HTTP non-2xx response on a non-cached task's
streamed GET raises, and — since neither the tree walk, nor
`scrap_product_page`, nor the library loop catches it — the exception
aborts the remaining sibling tasks and all remaining products of the
run. -/
theorem c2_http_error_aborts_run (env : String → Response) (st : DlState)
    (t : Task) (rest : List Task) (more : List (List Task))
    (hcache : FilesCache.is_cached st.cache t.product_id t.file_id = false)
    (hbad : (env t.url).ok = false) :
    runProducts env st ((t :: rest) :: more) = Except.error "HTTPError" := by
  unfold runProducts runTasks fancy_download_file
  simp [hcache, hbad]

/-- **C2 witness.** The amended theorem applied to a run of two
products whose first task's GET fails. -/
theorem c2_http_error_aborts_run_witness :
    runProducts (fun _ => ⟨false, some 5, [[1]]⟩) ⟨[], [], [], [], []⟩
        [[⟨"p1", "f1", "b", [], ["r", "x"], 1, 1, true⟩],
          [⟨"p2", "f2", "g", [], ["r", "y"], 1, 1, true⟩]] =
      Except.error "HTTPError" :=
  c2_http_error_aborts_run _ _ _ _ _ rfl rfl

/-! ### C3 — the ZIP download branch raises `TypeError` -/

/-- **C3.** The ZIP branch of `scrap_product_page` never performs the
download: the call
`_fancy_download_file(zip_url, Path("/"), output, transient=False)`
supplies three positional arguments for the five required positional
parameters (`product_id`, `file_id`, `url`, `tree_path`, `file_path`),
so Python raises `TypeError` for every product URL and product folder. -/
theorem c3_zip_branch_type_error (url : String) (product_folder : List String) :
    zip_branch url product_folder = Except.error PyError.typeError := rfl

/-! ### C4 — archive-vs-tree decision -/

/-- **C4.** With a "download all as ZIP" action present: a manifest of
exactly one file-list element whose displayed type is an archive
extension (`rar`/`zip`) makes the scraper take the tree path, and a
manifest of more than one element makes it take the archive path. -/
theorem c4_archive_vs_tree_decision (e : String) (tree_elements : List String)
    (harch : ARCHIVES_EXT.contains (pyLower (strip e)) = true)
    (hmulti : 1 < tree_elements.length) :
    archive_decision true [e] = Except.ok Mode.tree ∧
    archive_decision true tree_elements = Except.ok Mode.archive := by
  have h1 : content_is_archive [e] = Except.ok true := by
    unfold content_is_archive
    rw [if_neg (by simp)]
    exact congrArg Except.ok harch
  have h2 : content_is_archive tree_elements = Except.ok false := by
    unfold content_is_archive
    rw [if_pos hmulti]
  constructor
  · simp [archive_decision, h1]
  · simp [archive_decision, h2]

/-- **C4 witness.** The decision theorem applied to a single `" ZIP "`
file-list element and to a two-element selection. -/
theorem c4_archive_vs_tree_decision_witness :
    archive_decision true ["  ZIP "] = Except.ok Mode.tree ∧
    archive_decision true ["pdf", "png"] = Except.ok Mode.archive :=
  c4_archive_vs_tree_decision "  ZIP " ["pdf", "png"] (by decide) (by decide)

/-! ### C8 — zero-length guard -/

/-- **C8.** Zero-length guard: for a non-cached task whose streamed
response is 2xx but declares a zero or absent content length,
`_fancy_download_file` returns normally (it does not raise) having
written no file, created no directory, marked no cache entry and saved
nothing — the only effect is a logged warning. -/
theorem c8_zero_length_guard (env : String → Response) (st : DlState) (t : Task)
    (hcache : FilesCache.is_cached st.cache t.product_id t.file_id = false)
    (hok : (env t.url).ok = true)
    (hlen : (env t.url).contentLength.getD 0 = 0) :
    fancy_download_file env st t =
      Except.ok { st with
        logs := st.logs ++ [(LogLevel.warning, "received zero content length")] } := by
  unfold fancy_download_file
  simp [hcache, hok, hlen]

/-- **C8 witness.** The zero-length guard applied to a task whose
response carries no `content-length` header at all. -/
theorem c8_zero_length_guard_witness :
    fancy_download_file (fun _ => ⟨true, none, [[1, 2]]⟩) ⟨[], [], [], [], []⟩
        ⟨"p", "f", "u", [], ["r", "x.txt"], 1, 1, true⟩ =
      Except.ok ⟨[], [], [], [],
        [(LogLevel.warning, "received zero content length")]⟩ := by
  have h := c8_zero_length_guard (fun _ => ⟨true, none, [[1, 2]]⟩)
    ⟨[], [], [], [], []⟩ ⟨"p", "f", "u", [], ["r", "x.txt"], 1, 1, true⟩
    rfl rfl rfl
  simpa using h

/-! ### C9 — library creator filter -/

/-- **C9 counterexample.** An *empty* creator filter does not delegate
every purchase — it delegates none: with the empty set as filter, a
non-bundle purchase by creator `alice` (whose username resolves from the
profile URL) is skipped, because
`creator_username not in creators and creators != "."` is true for the
empty set. -/
theorem c9_empty_filter_counterexample :
    (scrape_library (PyCreators.set [])
        [{ creator_profile_url :=
             some "https://alice.gumroad.com?recommended_by=library",
           product_name := "prod", is_bundle_purchase := false,
           download_url := "https://app.gumroad.com/d/abc" }]).1 = [] ∧
    resolveUsername
        { creator_profile_url :=
            some "https://alice.gumroad.com?recommended_by=library",
          product_name := "prod", is_bundle_purchase := false,
          download_url := "https://app.gumroad.com/d/abc" } = "alice" := by
  constructor
  · decide
  · decide

/-- **C9 (amended).** The library loop with the sentinel filter `"."`
delegates exactly the non-bundle purchases (in order) and logs every
bundle; with a set filter — empty or not — it delegates exactly the
non-bundle purchases whose resolved creator username is in the set
(an empty set therefore delegates nothing), and bundles are logged,
never delegated. -/
theorem c9_creator_filter (results : List LibraryResult) (cs : List String) :
    (scrape_library (PyCreators.str ".") results).1 =
      (results.filter (fun r => !r.is_bundle_purchase)).map
        (fun r => r.download_url) ∧
    (scrape_library (PyCreators.str ".") results).2 =
      (results.filter (fun r => r.is_bundle_purchase)).map
        (fun r => r.product_name) ∧
    (scrape_library (PyCreators.set cs) results).1 =
      (results.filter (fun r =>
        cs.contains (resolveUsername r) && !r.is_bundle_purchase)).map
        (fun r => r.download_url) ∧
    (scrape_library (PyCreators.set cs) results).2 =
      (results.filter (fun r =>
        cs.contains (resolveUsername r) && r.is_bundle_purchase)).map
        (fun r => r.product_name) := by
  induction results with
  | nil => simp [scrape_library]
  | cons r rest ih =>
      obtain ⟨ih1, ih2, ih3, ih4⟩ := ih
      have hskip : skipsCreator (PyCreators.str ".") (resolveUsername r) = false := by
        simp [skipsCreator]
      have hskip2 : skipsCreator (PyCreators.set cs) (resolveUsername r) =
          !cs.contains (resolveUsername r) := by
        simp [skipsCreator, pyIn]
      refine ⟨?_, ?_, ?_, ?_⟩
      · cases hb : r.is_bundle_purchase <;>
          simp [scrape_library, hskip, hb, List.filter_cons, ih1]
      · cases hb : r.is_bundle_purchase <;>
          simp [scrape_library, hskip, hb, List.filter_cons, ih2]
      · by_cases hc : resolveUsername r ∈ cs <;>
          cases hb : r.is_bundle_purchase <;>
            simp [scrape_library, hskip2, hc, hb, List.filter_cons, ih3]
      · by_cases hc : resolveUsername r ∈ cs <;>
          cases hb : r.is_bundle_purchase <;>
            simp [scrape_library, hskip2, hc, hb, List.filter_cons, ih4]

/-! ### C10 — `_content_is_archive` on an empty selection -/

/-- **C10.** On a product page offering the ZIP action but containing no
`.js-file-list-element` node, the archive check indexes the first
element of an empty selection, so the archive-vs-tree decision raises an
uncaught `IndexError` instead of choosing a mode; with at least one
element the check always answers. -/
theorem c10_empty_selection_index_error :
    archive_decision true [] = Except.error PyError.indexError ∧
    ∀ (e : String) (es : List String),
      ∃ b, content_is_archive (e :: es) = Except.ok b := by
  refine ⟨rfl, fun e es => ?_⟩
  cases es with
  | nil =>
      exact ⟨ARCHIVES_EXT.contains (pyLower (strip e)),
        by simp [content_is_archive]⟩
  | cons x xs =>
      refine ⟨false, ?_⟩
      have hl : 1 < (e :: x :: xs).length := by simp
      simp [content_is_archive, hl]

/-- **C6 witness.** The amended theorem applied to a concrete level with
one downloadable file and one embedded item: the emitted task has
position 1 of sibling count 2. -/
theorem c6_sibling_positions_witness :
    ({ product_id := "p", file_id := "i1", url := "B/u", tree_path := [],
       file_path := ["r", "f.txt"], files_total_count := 2, file_idx := 1,
       transient := true } : Task).files_total_count =
      countFiles [Item.file ⟨"i1", "f", "txt", some "/u"⟩, Item.embedded] ∧
    1 ≤
      ({ product_id := "p", file_id := "i1", url := "B/u", tree_path := [],
         file_path := ["r", "f.txt"], files_total_count := 2, file_idx := 1,
         transient := true } : Task).file_idx ∧
    ({ product_id := "p", file_id := "i1", url := "B/u", tree_path := [],
       file_path := ["r", "f.txt"], files_total_count := 2, file_idx := 1,
       transient := true } : Task).file_idx ≤
      countFiles [Item.file ⟨"i1", "f", "txt", some "/u"⟩, Item.embedded] :=
  (c6_sibling_positions "p" "_" "B" [] ["r"]
      [Item.file ⟨"i1", "f", "txt", some "/u"⟩, Item.embedded]).2.2.2 _
    (by decide)

end GumroadUtils
